import Mathlib

/-!
# A shallow embedding of the `gosigsrv` WebRTC signaling server core

This file embeds the peer registry, pairing, mailbox relay and long-poll
delivery of `gosigsrv.go` (the iteration with `ConnectedWith` pairing and
`peerMsg` mailboxes) as pure Lean functions over an explicit server state,
and proves properties of the four request handlers
(`signinHandler`, `signoutHandler`, `messageHandler`, `waitHandler`).

Modelling conventions:
* The Go map `peers` is an association list `List (String × PeerInfo)`;
  insertion replaces any existing binding of the key, deletion removes it,
  lookup finds the binding.  Go map iteration order is unspecified; the
  model fixes registry order, and order-sensitive statements are read
  accordingly.
* A Go channel of capacity 100 is a `List PeerMsg` used as a FIFO queue
  (send appends, receive pops the head) guarded by the same
  `len == cap` / `len < cap` checks as the source.
* The Go `uint` id counter wraps modulo `2 ^ 64`; `fmt.Sprintf("%d", n)`
  is embedded as the decimal renderer `natDecStr`.
* Each handler is a function from the pre-state and the parsed request
  inputs to the post-state plus an `Except` outcome; a missing query
  parameter is `Option.none` where the source checks presence explicitly.
-/

/-- Peer classification from the source: peers are `client` unless their
name starts with `renderingserver_`, which makes them `server`. -/
inductive PeerKind where
  | client : PeerKind
  | server : PeerKind
deriving DecidableEq, Repr

/-- One mailbox entry (`peerMsg`): a `FromID` and an opaque `Message`. -/
structure PeerMsg where
  fromID : String
  message : String
deriving DecidableEq, Repr

/-- A registered peer (`peerInfo`).  `channel` is the bounded mailbox
(Go: `chan *peerMsg` of capacity `peerMessageBufferSize`). -/
structure PeerInfo where
  kind : PeerKind
  name : String
  id : String
  channel : List PeerMsg
  connectedWith : String
deriving DecidableEq, Repr

/-- The mailbox capacity, `peerMessageBufferSize = 100`. -/
def peerMessageBufferSize : Nat := 100

/-- The `peers` map: an association list keyed by peer id. -/
abbrev PeerMap := List (String × PeerInfo)

/-- Go map lookup `peers[k]`. -/
def mapLookup (m : PeerMap) (k : String) : Option PeerInfo :=
  (m.find? (fun e => e.1 = k)).map (·.2)

/-- Go map insert `peers[k] = v` (replaces an existing binding). -/
def mapInsert (m : PeerMap) (k : String) (v : PeerInfo) : PeerMap :=
  m.filter (fun e => e.1 ≠ k) ++ [(k, v)]

/-- Go map delete `delete(peers, k)`. -/
def mapDelete (m : PeerMap) (k : String) : PeerMap :=
  m.filter (fun e => e.1 ≠ k)

/-- In-place mutation of the record stored under `k` (Go: writing through
the `*peerInfo` pointer held in the map). -/
def mapUpdate (m : PeerMap) (k : String) (f : PeerInfo → PeerInfo) : PeerMap :=
  m.map (fun e => if e.1 = k then (e.1, f e.2) else e)

/-- The global server state: the `peers` map and the `peerIDCount` counter. -/
structure SrvState where
  peers : PeerMap
  peerIDCount : Nat
deriving DecidableEq, Repr

/-- The modulus of the Go `uint` id counter (64-bit). -/
def uintModulus : Nat := 2 ^ 64

/-- The state at process start: empty registry, counter 0. -/
def initState : SrvState := { peers := [], peerIDCount := 0 }

/-- Decimal digits of `n`, most significant first, as printed by
`fmt.Sprintf("%d", n)`.  The first argument is a structural-recursion
fuel bound (any fuel above `n` is enough). -/
def decDigitsAux : Nat → Nat → List Char
  | 0, _ => []
  | fuel + 1, n =>
    if n < 10 then [Nat.digitChar n]
    else decDigitsAux fuel (n / 10) ++ [Nat.digitChar (n % 10)]

/-- The decimal string `fmt.Sprintf("%d", n)`. -/
def natDecStr (n : Nat) : String := ⟨decDigitsAux (n + 1) n⟩

/-- Role classification: `strings.Index(name, "renderingserver_") == 0`,
i.e. the name starts with the reserved prefix (tested on the character
lists so that it evaluates by kernel reduction). -/
def peerKindOf (name : String) : PeerKind :=
  if "renderingserver_".data.isPrefixOf name.data then .server else .client

/-- One descriptor line `fmt.Sprintf("%s,%s,1")` plus `fmt.Sprintln()`. -/
def mkDescLine (name id : String) : String :=
  name ++ "," ++ id ++ ",1" ++ "\n"

/-- The descriptor line of a stored peer record. -/
def descLine (p : PeerInfo) : String := mkDescLine p.name p.id

/-- Concatenation of a list of lines (the handlers build the response by
repeated string append). -/
def concatLines : List String → String
  | [] => ""
  | s :: rest => s ++ concatLines rest

/-- The failure outcomes a handler can produce. -/
inductive HErr where
  | noName : HErr
  | unknownPeer : HErr
  | missingID : HErr
  | invalidID : HErr
  | backedUp : HErr
deriving DecidableEq, Repr

/-- The HTTP status code each failure is surfaced with. -/
def statusCode : HErr → Nat
  | .noName => 400
  | .unknownPeer => 400
  | .missingID => 400
  | .invalidID => 400
  | .backedUp => 503

/-- A successful sign-in response: the `Pragma` header value (the new id)
and the response body. -/
structure SigninOut where
  pragma : String
  body : String
deriving DecidableEq, Repr

/-- Eligibility test of the sign-in loop, the source condition
`pID != peerInfo.ID && pInfo.Kind != peerInfo.Kind && pInfo.ConnectedWith == ""`. -/
def eligB (newID : String) (newKind : PeerKind) (e : String × PeerInfo) : Bool :=
  !(e.1 == newID) && !(e.2.kind == newKind) && (e.2.connectedWith == "")

/-- Best-effort presence notification: if the mailbox has room, enqueue
`peerMsg{pInfo.ID, peerInfoString}` — note the source passes the notified
peer's own `ID` as `FromID` — otherwise drop it (logged in the source). -/
def notifyP (ownLine : String) (p : PeerInfo) : PeerInfo :=
  if p.channel.length < peerMessageBufferSize
  then { p with channel := p.channel ++ [⟨p.id, ownLine⟩] }
  else p

/-- The loop of `signinHandler` over the registry: every eligible entry
contributes its descriptor line to the response and receives a
best-effort presence notification.  Returns the appended response
fragment and the updated registry. -/
def notifyLoop (newID : String) (newKind : PeerKind) (ownLine : String) :
    PeerMap → String × PeerMap
  | [] => ("", [])
  | e :: rest =>
    let r := notifyLoop newID newKind ownLine rest
    if eligB newID newKind e then
      (descLine e.2 ++ r.1, (e.1, notifyP ownLine e.2) :: r.2)
    else
      (r.1, e :: r.2)

/-- The id `fmt.Sprintf("%d", peerIDCount)` assigned to the next
registration (the incremented counter, wrapped as a Go `uint`). -/
def newIDOf (st : SrvState) : String :=
  natDecStr ((st.peerIDCount + 1) % uintModulus)

/-- The record `signinHandler` builds for a new registration: classified
kind, the registration name, the fresh id, an empty mailbox, no pairing. -/
def newPeerOf (st : SrvState) (name : String) : PeerInfo :=
  { kind := peerKindOf name, name := name, id := newIDOf st,
    channel := [], connectedWith := "" }

/-- The sign-in loop run on the registry with the new peer inserted. -/
def signinLoopOf (st : SrvState) (name : String) : String × PeerMap :=
  notifyLoop (newIDOf st) (peerKindOf name) (mkDescLine name (newIDOf st))
    (mapInsert st.peers (newIDOf st) (newPeerOf st name))

/-- The registration handler (`signinHandler`) with the name already
parsed out of the query string (an absent name parameter is the empty
string, as in the source). -/
def signinRun (st : SrvState) (name : String) :
    SrvState × Except HErr SigninOut :=
  if name = "" then (st, .error .noName)
  else
    let r := signinLoopOf st name
    ({ peers := r.2, peerIDCount := (st.peerIDCount + 1) % uintModulus },
     .ok ⟨newIDOf st, mkDescLine name (newIDOf st) ++ r.1⟩)

/-- Clearing a counterpart's pairing: `connectedPeer.ConnectedWith = ""`. -/
def clearConnectedWith (p : PeerInfo) : PeerInfo := { p with connectedWith := "" }

/-- The sign-out handler (`signoutHandler`) with `peer_id` already parsed
(an absent parameter is the empty string, exactly as the source leaves
`peerID` empty). -/
def signoutRun (st : SrvState) (peerID : String) :
    SrvState × Except HErr String :=
  match mapLookup st.peers peerID with
  | none => (st, .error .unknownPeer)
  | some p =>
    let st1 :=
      if p.connectedWith ≠ "" then
        { st with peers := mapUpdate st.peers p.connectedWith clearConnectedWith }
      else st
    ({ st1 with peers := mapDelete st1.peers peerID }, .ok peerID)

/-- Overwriting a peer's `ConnectedWith` field. -/
def setConnectedWith (x : String) (p : PeerInfo) : PeerInfo :=
  { p with connectedWith := x }

/-- One half of the lazy pairing in `messageHandler`: if the peer stored
under `srcID` has an empty `ConnectedWith`, set it to the `ID` field of
the peer stored under `targetID` (a no-op when either id is absent). -/
def connectIfEmpty (st : SrvState) (srcID targetID : String) : SrvState :=
  match mapLookup st.peers srcID, mapLookup st.peers targetID with
  | some srcP, some tgtP =>
    if srcP.connectedWith = "" then
      { st with peers := mapUpdate st.peers srcID (setConnectedWith tgtP.id) }
    else st
  | _, _ => st

/-- The pairing stage of `messageHandler`: if the sender's `ConnectedWith`
is empty set it to the recipient's `ID`; then, if the recipient's
`ConnectedWith` is empty (re-read after the first write, so
sender-equals-recipient aliasing through the shared pointer is exact),
set it to the sender's `ID`. -/
def pairingStage (st : SrvState) (peerID toID : String) : SrvState :=
  connectIfEmpty (connectIfEmpty st peerID toID) toID peerID

/-- Enqueueing `peerMsg{peerID[0], requestString}` on a mailbox. -/
def enqueueMsg (fromID body : String) (p : PeerInfo) : PeerInfo :=
  { p with channel := p.channel ++ [⟨fromID, body⟩] }

/-- The send handler (`messageHandler`): validate both ids, run the
pairing stage, then enqueue unless the recipient's mailbox is at
capacity.  The returned string is the `Pragma` value (the sender id). -/
def messageRun (st : SrvState) (peerID? toID? : Option String) (body : String) :
    SrvState × Except HErr String :=
  match peerID?, toID? with
  | some peerID, some toID =>
    match mapLookup st.peers peerID, mapLookup st.peers toID with
    | some _, some _ =>
      let st2 := pairingStage st peerID toID
      match mapLookup st2.peers toID with
      | some to2 =>
        if to2.channel.length = peerMessageBufferSize then
          (st2, .error .backedUp)
        else
          ({ st2 with peers := mapUpdate st2.peers toID (enqueueMsg peerID body) },
           .ok peerID)
      | none => (st2, .error .invalidID)
    | _, _ => (st, .error .invalidID)
  | _, _ => (st, .error .missingID)

/-- A successful long-poll response: `Pragma` (the message's `FromID`),
the body, and the content length the transport reports (the byte length
of the body written). -/
structure WaitOut where
  pragma : String
  body : String
  contentLength : Nat
deriving DecidableEq, Repr

/-- The long-poll handler (`waitHandler`): validate the peer id, then take
the next mailbox entry.  `Except.ok none` models the handler still
suspended on an empty mailbox (no state change has happened yet). -/
def waitRun (st : SrvState) (peerID? : Option String) :
    SrvState × Except HErr (Option WaitOut) :=
  match peerID? with
  | none => (st, .error .missingID)
  | some peerID =>
    match mapLookup st.peers peerID with
    | none => (st, .error .unknownPeer)
    | some p =>
      match p.channel with
      | [] => (st, .ok none)
      | msg :: rest =>
        let pop := fun (q : PeerInfo) => { q with channel := rest }
        ({ st with peers := mapUpdate st.peers peerID pop },
         .ok (some ⟨msg.fromID, msg.message, msg.message.utf8ByteSize⟩))

/-- The ids currently registered. -/
def keysOf (st : SrvState) : List String := st.peers.map (·.1)

/-- The `ConnectedWith` field of the peer registered under `k`. -/
def cwOf (st : SrvState) (k : String) : Option String :=
  (mapLookup st.peers k).map (·.connectedWith)

/-- The mailbox of the peer registered under `k`. -/
def chanOf (st : SrvState) (k : String) : Option (List PeerMsg) :=
  (mapLookup st.peers k).map (·.channel)

/-- The name of the peer registered under `k`. -/
def nameOf (st : SrvState) (k : String) : Option String :=
  (mapLookup st.peers k).map (·.name)

/-- Registry well-formedness, true in every reachable state: each record's
`ID` field is its map key, and keys are non-empty (ids are decimal
numerals of a positive counter). -/
def StateWF (st : SrvState) : Prop :=
  ∀ e ∈ st.peers, e.2.id = e.1 ∧ e.1 ≠ ""

/-- Opposite-role-and-unpaired test against a given kind, used to state
which registered peers a registration response advertises. -/
def oppUnpairedB (k : PeerKind) (e : String × PeerInfo) : Bool :=
  !(e.2.kind == k) && (e.2.connectedWith == "")

/-- A sequence of sends from `S` to `R`, collecting each outcome. -/
def sendSeq (S R : String) : SrvState → List String → SrvState × List (Except HErr String)
  | st, [] => (st, [])
  | st, b :: rest =>
    let r1 := messageRun st (some S) (some R) b
    let rr := sendSeq S R r1.1 rest
    (rr.1, r1.2 :: rr.2)

/-- A sequence of sign-ins, collecting the ids assigned to the successful
ones. -/
def runSignins : SrvState → List String → SrvState × List String
  | st, [] => (st, [])
  | st, n :: rest =>
    let r1 := signinRun st n
    let rr := runSignins r1.1 rest
    match r1.2 with
    | .ok out => (rr.1, out.pragma :: rr.2)
    | .error _ => (rr.1, rr.2)

/-- Modelled from the spec: the stale-peer sweeper (spec §4.5) is absent
from the source tree — no `waiting` flag, `last_contact` field or sweep
loop exists in `gosigsrv.go` — so its registry view is modelled from the
spec's words: each run scans all registered peers and evicts a peer iff
`waiting == false` and `now - last_contact > 1 minute` (times in
seconds).  Only the eviction condition is modelled; the counterpart
`connected_with` cleanup is not needed by any claim. -/
structure SweepPeer where
  id : String
  waiting : Bool
  lastContact : Nat
deriving DecidableEq, Repr

/-- Modelled from the spec: one sweeper run at time `now` keeps exactly
the peers that are long-polling or were contacted within the last
minute. -/
def sweepRun (now : Nat) (ps : List SweepPeer) : List SweepPeer :=
  ps.filter (fun p => p.waiting || decide (now - p.lastContact ≤ 60))

deriving instance DecidableEq for Except

/-! ## Association-list map lemmas -/

theorem mapLookup_cons (e : String × PeerInfo) (m : PeerMap) (k : String) :
    mapLookup (e :: m) k = if e.1 = k then some e.2 else mapLookup m k := by
  by_cases h : e.1 = k
  · simp [mapLookup, List.find?_cons_of_pos, h]
  · simp [mapLookup, List.find?_cons_of_neg, h]

theorem mapLookup_update_self (m : PeerMap) (k : String) (f : PeerInfo → PeerInfo) :
    mapLookup (mapUpdate m k f) k = (mapLookup m k).map f := by
  induction m with
  | nil => rfl
  | cons e m ih =>
    by_cases h : e.1 = k
    · simp [mapUpdate, mapLookup_cons, h]
    · simpa [mapUpdate, mapLookup_cons, h] using ih

theorem mapLookup_update_ne (m : PeerMap) (k k' : String) (f : PeerInfo → PeerInfo)
    (h : k' ≠ k) : mapLookup (mapUpdate m k f) k' = mapLookup m k' := by
  have h' : k ≠ k' := Ne.symm h
  induction m with
  | nil => rfl
  | cons e m ih =>
    by_cases he : e.1 = k
    · simpa [mapUpdate, mapLookup_cons, he, h, h'] using ih
    · by_cases he' : e.1 = k'
      · simp [mapUpdate, mapLookup_cons, he, he', h, h']
      · simpa [mapUpdate, mapLookup_cons, he, he', h, h'] using ih

theorem mapLookup_update_proj {α : Type} (g : PeerInfo → α) (f : PeerInfo → PeerInfo)
    (hf : ∀ p, g (f p) = g p) (m : PeerMap) (k k' : String) :
    (mapLookup (mapUpdate m k f) k').map g = (mapLookup m k').map g := by
  by_cases h : k' = k
  · subst h
    rw [mapLookup_update_self]
    cases mapLookup m k' <;> simp [hf]
  · rw [mapLookup_update_ne m k k' f h]

theorem mapUpdate_keys (m : PeerMap) (k : String) (f : PeerInfo → PeerInfo) :
    (mapUpdate m k f).map (·.1) = m.map (·.1) := by
  induction m with
  | nil => rfl
  | cons e m ih =>
    by_cases h : e.1 = k <;> simp [mapUpdate, h] <;> simpa [mapUpdate] using ih

theorem mapLookup_insert_self (m : PeerMap) (k : String) (v : PeerInfo) :
    mapLookup (mapInsert m k v) k = some v := by
  induction m with
  | nil => simp [mapInsert, mapLookup_cons]
  | cons e m ih =>
    by_cases h : e.1 = k
    · simpa [mapInsert, List.filter_cons, h] using ih
    · simpa [mapInsert, List.filter_cons, h, mapLookup_cons] using ih

theorem mapLookup_insert_ne (m : PeerMap) (k k' : String) (v : PeerInfo)
    (h : k' ≠ k) : mapLookup (mapInsert m k v) k' = mapLookup m k' := by
  have h' : k ≠ k' := Ne.symm h
  induction m with
  | nil => simp [mapInsert, mapLookup_cons, h, h']
  | cons e m ih =>
    by_cases he : e.1 = k
    · simpa [mapInsert, List.filter_cons, he, mapLookup_cons, h, h'] using ih
    · by_cases he' : e.1 = k'
      · simp [mapInsert, List.filter_cons, he, mapLookup_cons, he', h, h']
      · simpa [mapInsert, List.filter_cons, he, mapLookup_cons, he', h, h'] using ih

theorem mapLookup_delete_self (m : PeerMap) (k : String) :
    mapLookup (mapDelete m k) k = none := by
  induction m with
  | nil => rfl
  | cons e m ih =>
    by_cases h : e.1 = k
    · simpa [mapDelete, List.filter_cons, h] using ih
    · simpa [mapDelete, List.filter_cons, h, mapLookup_cons] using ih

theorem mapLookup_delete_ne (m : PeerMap) (k k' : String) (h : k' ≠ k) :
    mapLookup (mapDelete m k) k' = mapLookup m k' := by
  have h' : k ≠ k' := Ne.symm h
  induction m with
  | nil => rfl
  | cons e m ih =>
    by_cases he : e.1 = k
    · simpa [mapDelete, List.filter_cons, he, mapLookup_cons, h, h'] using ih
    · by_cases he' : e.1 = k'
      · simp [mapDelete, List.filter_cons, he, mapLookup_cons, he', h, h']
      · simpa [mapDelete, List.filter_cons, he, mapLookup_cons, he', h, h'] using ih

/-! ## Injectivity of the decimal renderer -/

theorem decDigitsAux_fuel : ∀ f₁ f₂ n, n < f₁ → n < f₂ →
    decDigitsAux f₁ n = decDigitsAux f₂ n := by
  intro f₁
  induction f₁ with
  | zero => intro f₂ n h1 _; omega
  | succ f ih =>
    intro f₂ n h1 h2
    cases f₂ with
    | zero => omega
    | succ f₂ =>
      simp only [decDigitsAux]
      by_cases h10 : n < 10
      · simp [h10]
      · have hn : 0 < n := by omega
        have hdiv : n / 10 < n := Nat.div_lt_self hn (by omega)
        simp only [h10, if_false]
        rw [ih f₂ (n / 10) (by omega) (by omega)]

def parseDecDigit (c : Char) : Nat := c.toNat - 48

def parseDec (l : List Char) : Nat :=
  l.foldl (fun a c => a * 10 + parseDecDigit c) 0

theorem parseDec_append (l : List Char) (c : Char) :
    parseDec (l ++ [c]) = parseDec l * 10 + parseDecDigit c := by
  simp [parseDec, List.foldl_append]

theorem parseDecDigit_digitChar (n : Nat) (h : n < 10) :
    parseDecDigit (Nat.digitChar n) = n := by
  revert h; revert n; decide

theorem parseDec_decDigitsAux : ∀ f n, n < f → parseDec (decDigitsAux f n) = n := by
  intro f
  induction f with
  | zero => intro n h; omega
  | succ f ih =>
    intro n h
    simp only [decDigitsAux]
    by_cases h10 : n < 10
    · simp [h10, parseDec, parseDecDigit_digitChar n h10]
    · have hn : 0 < n := by omega
      have hdiv : n / 10 < n := Nat.div_lt_self hn (by omega)
      have hmod : n % 10 < 10 := Nat.mod_lt _ (by omega)
      simp only [h10, if_false, parseDec_append, ih (n / 10) (by omega),
        parseDecDigit_digitChar (n % 10) hmod]
      omega

theorem natDecStr_inj {a b : Nat} (h : natDecStr a = natDecStr b) : a = b := by
  have hdata : decDigitsAux (a + 1) a = decDigitsAux (b + 1) b := congrArg String.data h
  have ha := parseDec_decDigitsAux (a + 1) a (by omega)
  have hb := parseDec_decDigitsAux (b + 1) b (by omega)
  rw [hdata, hb] at ha
  exact ha.symm

/-! ## Sign-in loop lemmas -/

theorem notifyLoop_resp (newID : String) (newKind : PeerKind) (ownLine : String) :
    ∀ l : PeerMap, (notifyLoop newID newKind ownLine l).1 =
      concatLines ((l.filter (eligB newID newKind)).map (fun e => descLine e.2)) := by
  intro l
  induction l with
  | nil => rfl
  | cons e rest ih =>
    cases heq : eligB newID newKind e <;>
      simp [notifyLoop, List.filter_cons, heq, concatLines, ih]

theorem notifyLoop_keys (newID : String) (newKind : PeerKind) (ownLine : String) :
    ∀ l : PeerMap, (notifyLoop newID newKind ownLine l).2.map (·.1) = l.map (·.1) := by
  intro l
  induction l with
  | nil => rfl
  | cons e rest ih =>
    cases heq : eligB newID newKind e <;> simp [notifyLoop, heq, ih]

theorem notifyLoop_lookup (newID : String) (newKind : PeerKind) (ownLine : String)
    (l : PeerMap) (key : String) :
    mapLookup (notifyLoop newID newKind ownLine l).2 key =
      (mapLookup l key).map
        (fun p => if eligB newID newKind (key, p) then notifyP ownLine p else p) := by
  induction l with
  | nil => rfl
  | cons e rest ih =>
    by_cases hk : e.1 = key
    · have he : (key, e.2) = e := by rw [← hk]
      cases heq : eligB newID newKind e <;>
        simp [notifyLoop, heq, mapLookup_cons, hk, he]
    · cases heq : eligB newID newKind e <;>
        simpa [notifyLoop, heq, mapLookup_cons, hk] using ih

theorem signinRun_ok (st : SrvState) (name : String) (h : name ≠ "") :
    signinRun st name =
      ({ peers := (signinLoopOf st name).2,
         peerIDCount := (st.peerIDCount + 1) % uintModulus },
       .ok ⟨newIDOf st, mkDescLine name (newIDOf st) ++ (signinLoopOf st name).1⟩) := by
  simp [signinRun, h]

theorem signin_keys (st : SrvState) (name : String) (h : name ≠ "") :
    keysOf (signinRun st name).1 =
      (st.peers.filter (fun e => e.1 ≠ newIDOf st)).map (·.1) ++ [newIDOf st] := by
  simp [signinRun_ok st name h, keysOf, signinLoopOf, notifyLoop_keys, mapInsert]

/-! ## Pairing-stage lemmas -/

theorem connectIfEmpty_proj {α : Type} (g : PeerInfo → α)
    (hg : ∀ p c, g (setConnectedWith c p) = g p) (st : SrvState) (a b k : String) :
    (mapLookup (connectIfEmpty st a b).peers k).map g = (mapLookup st.peers k).map g := by
  cases h1 : mapLookup st.peers a <;> cases h2 : mapLookup st.peers b <;>
    simp only [connectIfEmpty, h1, h2]
  split
  · exact mapLookup_update_proj g _ (fun p => hg p _) st.peers a k
  · rfl

theorem connectIfEmpty_count (st : SrvState) (a b : String) :
    (connectIfEmpty st a b).peerIDCount = st.peerIDCount := by
  cases h1 : mapLookup st.peers a <;> cases h2 : mapLookup st.peers b <;>
    simp only [connectIfEmpty, h1, h2]
  split <;> rfl

theorem connectIfEmpty_keys (st : SrvState) (a b : String) :
    keysOf (connectIfEmpty st a b) = keysOf st := by
  cases h1 : mapLookup st.peers a <;> cases h2 : mapLookup st.peers b <;>
    simp only [connectIfEmpty, h1, h2]
  split
  · simp [keysOf, mapUpdate_keys]
  · rfl

theorem connectIfEmpty_other (st : SrvState) (a b k : String) (hk : k ≠ a) :
    mapLookup (connectIfEmpty st a b).peers k = mapLookup st.peers k := by
  cases h1 : mapLookup st.peers a <;> cases h2 : mapLookup st.peers b <;>
    simp only [connectIfEmpty, h1, h2]
  split
  · exact mapLookup_update_ne st.peers a k _ hk
  · rfl

theorem connectIfEmpty_lookup_src (st : SrvState) (a b : String) (pa pb : PeerInfo)
    (ha : mapLookup st.peers a = some pa) (hb : mapLookup st.peers b = some pb) :
    mapLookup (connectIfEmpty st a b).peers a =
      some (if pa.connectedWith = "" then setConnectedWith pb.id pa else pa) := by
  simp only [connectIfEmpty, ha, hb]
  split_ifs with h <;> simp [mapLookup_update_self, ha, h]

theorem connectIfEmpty_of_nonempty (st : SrvState) (a b : String) (pa : PeerInfo)
    (ha : mapLookup st.peers a = some pa) (h : pa.connectedWith ≠ "") :
    connectIfEmpty st a b = st := by
  cases hb : mapLookup st.peers b <;> simp [connectIfEmpty, ha, hb, h]

theorem mapLookup_update_isSome (m : PeerMap) (k : String) (f : PeerInfo → PeerInfo)
    (k' : String) :
    (mapLookup (mapUpdate m k f) k').isSome = (mapLookup m k').isSome := by
  by_cases h : k' = k
  · subst h
    rw [mapLookup_update_self]
    cases mapLookup m k' <;> rfl
  · rw [mapLookup_update_ne m k k' f h]

theorem connectIfEmpty_isSome (st : SrvState) (a b k : String) :
    (mapLookup (connectIfEmpty st a b).peers k).isSome =
      (mapLookup st.peers k).isSome := by
  cases h1 : mapLookup st.peers a <;> cases h2 : mapLookup st.peers b <;>
    simp only [connectIfEmpty, h1, h2]
  split
  · exact mapLookup_update_isSome st.peers a _ k
  · rfl

theorem pairingStage_chan (st : SrvState) (S R k : String) :
    chanOf (pairingStage st S R) k = chanOf st k := by
  unfold chanOf pairingStage
  rw [connectIfEmpty_proj (·.channel) (fun p c => rfl),
    connectIfEmpty_proj (·.channel) (fun p c => rfl)]

theorem pairingStage_name (st : SrvState) (S R k : String) :
    nameOf (pairingStage st S R) k = nameOf st k := by
  unfold nameOf pairingStage
  rw [connectIfEmpty_proj (·.name) (fun p c => rfl),
    connectIfEmpty_proj (·.name) (fun p c => rfl)]

theorem pairingStage_keys (st : SrvState) (S R : String) :
    keysOf (pairingStage st S R) = keysOf st := by
  unfold pairingStage
  rw [connectIfEmpty_keys, connectIfEmpty_keys]

theorem pairingStage_count (st : SrvState) (S R : String) :
    (pairingStage st S R).peerIDCount = st.peerIDCount := by
  unfold pairingStage
  rw [connectIfEmpty_count, connectIfEmpty_count]

theorem pairingStage_isSome (st : SrvState) (S R k : String) :
    (mapLookup (pairingStage st S R).peers k).isSome =
      (mapLookup st.peers k).isSome := by
  unfold pairingStage
  rw [connectIfEmpty_isSome, connectIfEmpty_isSome]

theorem pairingStage_other (st : SrvState) (S R k : String)
    (h1 : k ≠ S) (h2 : k ≠ R) :
    mapLookup (pairingStage st S R).peers k = mapLookup st.peers k := by
  unfold pairingStage
  rw [connectIfEmpty_other _ _ _ _ h2, connectIfEmpty_other _ _ _ _ h1]

/-! ## Well-formedness and handler characterizations -/

theorem mapLookup_mem {m : PeerMap} {k : String} {p : PeerInfo}
    (h : mapLookup m k = some p) : (k, p) ∈ m := by
  induction m with
  | nil => cases h
  | cons e m ih =>
    rw [mapLookup_cons] at h
    by_cases hk : e.1 = k
    · rw [if_pos hk] at h
      injection h with h
      have he : e = (k, p) := by
        cases e
        simp only at hk h
        rw [hk, h]
      rw [he]
      exact List.mem_cons_self _ _
    · rw [if_neg hk] at h
      exact List.mem_cons_of_mem _ (ih h)

theorem StateWF.lookup_id {st : SrvState} {k : String} {p : PeerInfo}
    (hWF : StateWF st) (h : mapLookup st.peers k = some p) :
    p.id = k ∧ k ≠ "" :=
  hWF (k, p) (mapLookup_mem h)

theorem pairingStage_both_empty (st : SrvState) (S R : String) (ps pr : PeerInfo)
    (hWF : StateWF st) (hS : mapLookup st.peers S = some ps)
    (hR : mapLookup st.peers R = some pr)
    (h1 : ps.connectedWith = "") (h2 : pr.connectedWith = "") :
    cwOf (pairingStage st S R) S = some R ∧ cwOf (pairingStage st S R) R = some S := by
  obtain ⟨hids, hSne⟩ := hWF.lookup_id hS
  obtain ⟨hidr, hRne⟩ := hWF.lookup_id hR
  have hst1 : connectIfEmpty st S R =
      { st with peers := mapUpdate st.peers S (setConnectedWith pr.id) } := by
    simp [connectIfEmpty, hS, hR, h1]
  unfold pairingStage
  rw [hst1]
  by_cases hSR : R = S
  · subst hSR
    have hpp : ps = pr := by
      rw [hS] at hR
      injection hR
    subst hpp
    rw [hids]
    have hlook : mapLookup (mapUpdate st.peers R (setConnectedWith R)) R =
        some (setConnectedWith R ps) := by
      rw [mapLookup_update_self, hS]
      rfl
    have hcw : (setConnectedWith R ps).connectedWith ≠ "" := by
      simp [setConnectedWith, hRne]
    rw [connectIfEmpty_of_nonempty _ R R _ hlook hcw]
    constructor <;> simp [cwOf, hlook, setConnectedWith]
  · rw [hidr]
    have hlookR : mapLookup (mapUpdate st.peers S (setConnectedWith R)) R =
        some pr := by
      rw [mapLookup_update_ne _ _ _ _ hSR, hR]
    have hlookS : mapLookup (mapUpdate st.peers S (setConnectedWith R)) S =
        some (setConnectedWith R ps) := by
      rw [mapLookup_update_self, hS]
      rfl
    have hid2 : (setConnectedWith R ps).id = S := by
      simp [setConnectedWith, hids]
    have hstep2 : connectIfEmpty
        { st with peers := mapUpdate st.peers S (setConnectedWith R) } R S =
        { st with peers := mapUpdate (mapUpdate st.peers S (setConnectedWith R)) R (setConnectedWith S) } := by
      simp [connectIfEmpty, hlookR, hlookS, h2, hid2]
    rw [hstep2]
    constructor
    · have hne : S ≠ R := fun hc => hSR hc.symm
      simp [cwOf, mapLookup_update_ne _ R S _ hne, hlookS, setConnectedWith]
    · simp [cwOf, mapLookup_update_self, hlookR, setConnectedWith]

theorem pairingStage_sender_nonempty (st : SrvState) (S R : String) (ps : PeerInfo)
    (hS : mapLookup st.peers S = some ps) (h1 : ps.connectedWith ≠ "") :
    cwOf (pairingStage st S R) S = some ps.connectedWith := by
  unfold pairingStage
  rw [connectIfEmpty_of_nonempty st S R ps hS h1]
  by_cases hSR : S = R
  · subst hSR
    rw [connectIfEmpty_of_nonempty st S S ps hS h1]
    simp [cwOf, hS]
  · simp [cwOf, connectIfEmpty_other st R S S hSR, hS]

theorem messageRun_eq (st : SrvState) (S R body : String) (ps pr : PeerInfo)
    (hS : mapLookup st.peers S = some ps) (hR : mapLookup st.peers R = some pr) :
    messageRun st (some S) (some R) body =
      if pr.channel.length = peerMessageBufferSize then
        (pairingStage st S R, .error .backedUp)
      else
        ({ pairingStage st S R with
            peers := mapUpdate (pairingStage st S R).peers R (enqueueMsg S body) },
         .ok S) := by
  have hchan := pairingStage_chan st S R R
  rw [chanOf, chanOf, hR] at hchan
  cases hR2 : mapLookup (pairingStage st S R).peers R with
  | none => rw [hR2] at hchan; cases hchan
  | some pr2 =>
    rw [hR2] at hchan
    have hch : pr2.channel = pr.channel := by
      injection hchan
    simp only [messageRun, hS, hR, hR2, hch]

theorem waitRun_pop (st : SrvState) (k : String) (p : PeerInfo) (msg : PeerMsg)
    (rest : List PeerMsg) (hk : mapLookup st.peers k = some p)
    (hch : p.channel = msg :: rest) :
    waitRun st (some k) =
      ({ st with peers := mapUpdate st.peers k (fun q => { q with channel := rest }) },
       .ok (some ⟨msg.fromID, msg.message, msg.message.utf8ByteSize⟩)) := by
  simp [waitRun, hk, hch]

theorem messageRun_cw (st : SrvState) (S R body : String) (ps pr : PeerInfo)
    (hS : mapLookup st.peers S = some ps) (hR : mapLookup st.peers R = some pr)
    (k : String) :
    cwOf (messageRun st (some S) (some R) body).1 k = cwOf (pairingStage st S R) k := by
  rw [messageRun_eq st S R body ps pr hS hR]
  split_ifs
  · rfl
  · simp only [cwOf]
    exact mapLookup_update_proj (·.connectedWith) (enqueueMsg S body) (fun p => rfl)
      (pairingStage st S R).peers R k

theorem messageRun_res (st : SrvState) (S R body : String) (ps pr : PeerInfo)
    (hS : mapLookup st.peers S = some ps) (hR : mapLookup st.peers R = some pr) :
    (messageRun st (some S) (some R) body).2 =
      if pr.channel.length = peerMessageBufferSize then .error .backedUp
      else .ok S := by
  rw [messageRun_eq st S R body ps pr hS hR]
  split_ifs <;> rfl

theorem signoutRun_some (st : SrvState) (A : String) (pa : PeerInfo)
    (hA : mapLookup st.peers A = some pa) :
    signoutRun st A =
      ({ peers := mapDelete (if pa.connectedWith ≠ "" then mapUpdate st.peers pa.connectedWith clearConnectedWith else st.peers) A,
         peerIDCount := st.peerIDCount }, .ok A) := by
  simp only [signoutRun, hA]
  split_ifs with h <;> simp [h]

/-! ## Send-sequence lemmas -/

theorem sendSeq_fill (S R : String) : ∀ (bodies : List String) (st : SrvState)
    (pr : PeerInfo), mapLookup st.peers R = some pr →
    (mapLookup st.peers S).isSome →
    pr.channel.length + bodies.length ≤ peerMessageBufferSize →
    (sendSeq S R st bodies).2 = bodies.map (fun _ => Except.ok S) ∧
    ∃ pr' : PeerInfo, mapLookup (sendSeq S R st bodies).1.peers R = some pr' ∧
      pr'.channel = pr.channel ++ bodies.map (fun b => PeerMsg.mk S b) ∧
      (mapLookup (sendSeq S R st bodies).1.peers S).isSome := by
  intro bodies
  induction bodies with
  | nil =>
    intro st pr hR hS _
    exact ⟨rfl, pr, hR, by simp, hS⟩
  | cons b rest ih =>
    intro st pr hR hS hlen
    obtain ⟨ps, hps⟩ := Option.isSome_iff_exists.mp hS
    have hlt : pr.channel.length ≠ peerMessageBufferSize := by
      simp only [List.length_cons] at hlen
      omega
    have heq := messageRun_eq st S R b ps pr hps hR
    rw [if_neg hlt] at heq
    have hchan := pairingStage_chan st S R R
    rw [chanOf, chanOf, hR] at hchan
    cases hR2 : mapLookup (pairingStage st S R).peers R with
    | none => rw [hR2] at hchan; cases hchan
    | some pr2 =>
      rw [hR2] at hchan
      have hch : pr2.channel = pr.channel := by injection hchan
      have hlookR' : mapLookup (messageRun st (some S) (some R) b).1.peers R =
          some (enqueueMsg S b pr2) := by
        rw [heq]
        simp only
        rw [mapLookup_update_self, hR2]
        rfl
      have hSome' : (mapLookup (messageRun st (some S) (some R) b).1.peers S).isSome := by
        rw [heq]
        simp only
        rw [mapLookup_update_isSome, pairingStage_isSome, hps]
        rfl
      have hchan' : (enqueueMsg S b pr2).channel = pr.channel ++ [⟨S, b⟩] := by
        simp [enqueueMsg, hch]
      have hlen' : (enqueueMsg S b pr2).channel.length + rest.length ≤
          peerMessageBufferSize := by
        rw [hchan']
        simp only [List.length_cons, List.length_append, List.length_nil] at hlen ⊢
        omega
      obtain ⟨hres, pr', hR', hch', hS'⟩ :=
        ih (messageRun st (some S) (some R) b).1 (enqueueMsg S b pr2) hlookR' hSome' hlen'
      have hr1 : (messageRun st (some S) (some R) b).2 = .ok S := by rw [heq]
      refine ⟨?_, pr', ?_, ?_, ?_⟩
      · simp only [sendSeq, hres, hr1, List.map_cons]
      · simpa only [sendSeq] using hR'
      · rw [hch', hchan']
        simp
      · simpa only [sendSeq] using hS'

/-! ## Registration-sequence lemmas -/

theorem runSignins_ids : ∀ (names : List String), (∀ n ∈ names, n ≠ "") →
    ∀ st : SrvState, (runSignins st names).2 =
      (List.range names.length).map
        (fun i => natDecStr ((st.peerIDCount + i + 1) % uintModulus)) := by
  intro names
  induction names with
  | nil => intro _ st; simp [runSignins]
  | cons n rest ih =>
    intro h st
    have hn : n ≠ "" := h n (List.mem_cons_self n rest)
    have hrest : ∀ m ∈ rest, m ≠ "" := fun m hm => h m (List.mem_cons_of_mem n hm)
    simp only [runSignins, signinRun_ok st n hn]
    rw [ih hrest]
    simp only [List.length_cons, List.range_succ_eq_map, List.map_cons, List.map_map]
    congr 1
    apply List.map_congr_left
    intro i _
    have harith : (((st.peerIDCount + 1) % uintModulus) + i + 1) % uintModulus =
        (st.peerIDCount + (i + 1) + 1) % uintModulus := by
      simp only [uintModulus]
      omega
    simp [Function.comp, harith]

theorem runSignins_keys_subset : ∀ (names : List String) (st : SrvState) (k : String),
    k ∈ keysOf (runSignins st names).1 →
    k ∈ keysOf st ∨ k ∈ (runSignins st names).2 := by
  intro names
  induction names with
  | nil => intro st k h; exact Or.inl h
  | cons n rest ih =>
    intro st k h
    by_cases hn : n = ""
    · subst hn
      have h' : k ∈ keysOf (runSignins st rest).1 := by
        simpa [runSignins, signinRun] using h
      rcases ih st k h' with h1 | h1
      · exact Or.inl h1
      · right
        simpa [runSignins, signinRun] using h1
    · simp only [runSignins, signinRun_ok st n hn] at h ⊢
      rcases ih _ k h with h1 | h1
      · have hkeys := signin_keys st n hn
        simp only [signinRun_ok st n hn] at hkeys
        rw [hkeys] at h1
        rcases List.mem_append.mp h1 with h2 | h2
        · exact Or.inl (List.map_subset _ (List.filter_subset' _) h2)
        · simp only [List.mem_singleton] at h2
          exact Or.inr (by simp [h2])
      · exact Or.inr (List.mem_cons_of_mem _ h1)

theorem mapLookup_none_keys {m : PeerMap} {k : String}
    (h : mapLookup m k = none) : ∀ e ∈ m, e.1 ≠ k := by
  intro e he
  unfold mapLookup at h
  cases hf : m.find? (fun e => e.1 = k) with
  | none =>
    have := List.find?_eq_none.mp hf e he
    simpa using this
  | some x => rw [hf] at h; cases h

theorem sendSeq_append (S R : String) (l1 l2 : List String) : ∀ st : SrvState,
    sendSeq S R st (l1 ++ l2) =
      ((sendSeq S R (sendSeq S R st l1).1 l2).1,
       (sendSeq S R st l1).2 ++ (sendSeq S R (sendSeq S R st l1).1 l2).2) := by
  induction l1 with
  | nil => intro st; simp [sendSeq]
  | cons b l1 ih => intro st; simp [sendSeq, ih]

/-! ## The claims -/

/-- C1: the claim states that every presence notification carries
`from_id` equal to the new peer's id.  The code instead enqueues
`peerMsg{pInfo.ID, peerInfoString}`, i.e. the notified counterpart's own
id.  Concretely: from the empty registry, registering `alice` (id `1`)
and then `renderingserver_bob` (id `2`) leaves in alice's mailbox a
notification whose payload is bob's descriptor line but whose `fromID`
is `"1"` — alice's own id — not the new peer's id `"2"`. -/
theorem C1_presence_fromid_bug :
    chanOf (signinRun (signinRun initState "alice").1 "renderingserver_bob").1 "1" =
      some [⟨"1", "renderingserver_bob,2,1\n"⟩] ∧
    (PeerMsg.mk "1" "renderingserver_bob,2,1\n").fromID ≠ "2" ∧
    (signinRun (signinRun initState "alice").1 "renderingserver_bob").2 =
      .ok ⟨"2", "renderingserver_bob,2,1\nalice,1,1\n"⟩ := by
  decide

theorem filter_elig_eq (m : PeerMap) (nid : String) (k : PeerKind)
    (hne : ∀ e ∈ m, e.1 ≠ nid) :
    m.filter (eligB nid k) = m.filter (oppUnpairedB k) := by
  apply List.filter_congr
  intro e he
  have hb : (e.1 == nid) = false := beq_eq_false_iff_ne.mpr (hne e he)
  simp [eligB, oppUnpairedB, hb]

/-- C2: for every registration with a non-empty name (and a fresh id, as
on every non-wrapped counter), the response body is exactly the new
peer's own descriptor line followed by one descriptor line per currently
registered peer of the opposite role whose `connected_with` is empty —
no more, no fewer. -/
theorem C2_signin_response_exact (st : SrvState) (name : String) (h : name ≠ "")
    (hfresh : mapLookup st.peers (newIDOf st) = none) :
    (signinRun st name).2 = .ok ⟨newIDOf st,
      mkDescLine name (newIDOf st) ++
        concatLines ((st.peers.filter (oppUnpairedB (peerKindOf name))).map
          (fun e => descLine e.2))⟩ := by
  rw [signinRun_ok st name h]
  simp only
  have hne := mapLookup_none_keys hfresh
  have h1 : (mapInsert st.peers (newIDOf st) (newPeerOf st name)).filter
      (eligB (newIDOf st) (peerKindOf name)) =
      st.peers.filter (oppUnpairedB (peerKindOf name)) := by
    rw [mapInsert, List.filter_append]
    have hfs : st.peers.filter (fun e => e.1 ≠ newIDOf st) = st.peers :=
      List.filter_eq_self.mpr (fun e he => by simp [hne e he])
    have hsingle : ([(newIDOf st, newPeerOf st name)] : PeerMap).filter
        (eligB (newIDOf st) (peerKindOf name)) = [] := by
      simp [eligB]
    rw [hfs, hsingle, List.append_nil]
    exact filter_elig_eq st.peers (newIDOf st) (peerKindOf name) hne
  rw [signinLoopOf, notifyLoop_resp, h1]

/-- Witness for C2 at a concrete state: after registering `alice`, a
registration of `renderingserver_bob` answers with bob's own line
followed by exactly the line of the unpaired opposite-role peer alice. -/
theorem C2_signin_response_exact_witness :
    ("renderingserver_bob" : String) ≠ "" ∧
    mapLookup (signinRun initState "alice").1.peers
      (newIDOf (signinRun initState "alice").1) = none ∧
    (signinRun (signinRun initState "alice").1 "renderingserver_bob").2 =
      .ok ⟨newIDOf (signinRun initState "alice").1,
        mkDescLine "renderingserver_bob" (newIDOf (signinRun initState "alice").1) ++
          concatLines (((signinRun initState "alice").1.peers.filter
            (oppUnpairedB (peerKindOf "renderingserver_bob"))).map
            (fun e => descLine e.2))⟩ :=
  ⟨by decide, by decide,
    C2_signin_response_exact (signinRun initState "alice").1 "renderingserver_bob"
      (by decide) (by decide)⟩

/-- The registry reached from empty by registering `a` (id 1), `b` (id 2),
`c` (id 3), sending 1→2 (pairing 1↔2) and then 3→1 (one-directional:
peer 3 points at 1, while 1 keeps pointing at 2). -/
def c3Pre : SrvState :=
  (messageRun (messageRun (signinRun (signinRun (signinRun initState "a").1
    "b").1 "c").1 (some "1") (some "2") "m1").1 (some "3") (some "1") "m2").1

set_option maxRecDepth 4000

/-- C3 counterexample: deregistering peer 1 from `c3Pre` succeeds and
removes peer 1, yet peer 3 — whose `connected_with` pointed at 1 while 1
pointed at 2 — still carries `connected_with = "1"`, the id of the
removed peer.  The claim that after a deregistration no remaining peer's
`connected_with` equals the removed id is therefore false. -/
theorem C3_counterexample :
    (signoutRun c3Pre "1").2 = .ok "1" ∧
    mapLookup (signoutRun c3Pre "1").1.peers "1" = none ∧
    cwOf (signoutRun c3Pre "1").1 "3" = some "1" := by
  decide

/-- C3 (amended): deregistering a present peer `A` removes `A` and clears
the `connected_with` of exactly the single peer named by `A`'s own
`connected_with` (when non-empty) — regardless of whether that peer
pointed back at `A` — while every other remaining peer, including any
whose `connected_with` points at `A`, is left untouched. -/
theorem C3_signout_cleanup (st : SrvState) (A : String) (pa : PeerInfo)
    (hA : mapLookup st.peers A = some pa) :
    (signoutRun st A).2 = .ok A ∧
    mapLookup (signoutRun st A).1.peers A = none ∧
    (∀ k, k ≠ A → k = pa.connectedWith → pa.connectedWith ≠ "" →
      mapLookup (signoutRun st A).1.peers k =
        (mapLookup st.peers k).map clearConnectedWith) ∧
    (∀ k, k ≠ A → (k ≠ pa.connectedWith ∨ pa.connectedWith = "") →
      mapLookup (signoutRun st A).1.peers k = mapLookup st.peers k) := by
  rw [signoutRun_some st A pa hA]
  refine ⟨rfl, ?_, ?_, ?_⟩
  · simp only
    exact mapLookup_delete_self _ A
  · intro k hkA hkcw hcw
    simp only
    rw [mapLookup_delete_ne _ A k hkA, if_pos hcw, hkcw, mapLookup_update_self]
  · intro k hkA hor
    simp only
    rw [mapLookup_delete_ne _ A k hkA]
    rcases hor with h1 | h1
    · split_ifs with h2
      · exact mapLookup_update_ne st.peers pa.connectedWith k clearConnectedWith h1
      · rfl
    · rw [if_neg (by simp [h1])]

/-- Witness for C3 (amended) on a concrete registry: `a` (id 1) and `b`
(id 2) registered and paired by a send 1→2; deregistering 1 removes it,
clears 2 (the peer 1 pointed at), and `3 ∉ registry` cases are vacuous. -/
theorem C3_signout_cleanup_witness :
    ((signoutRun (messageRun (signinRun (signinRun initState "a").1 "b").1
        (some "1") (some "2") "m").1 "1").2 = .ok "1" ∧
      mapLookup (signoutRun (messageRun (signinRun (signinRun initState "a").1 "b").1
        (some "1") (some "2") "m").1 "1").1.peers "1" = none ∧
      (∀ k, k ≠ "1" → k = "2" → ("2" : String) ≠ "" →
        mapLookup (signoutRun (messageRun (signinRun (signinRun initState "a").1 "b").1
          (some "1") (some "2") "m").1 "1").1.peers k =
          (mapLookup (messageRun (signinRun (signinRun initState "a").1 "b").1
            (some "1") (some "2") "m").1.peers k).map clearConnectedWith) ∧
      (∀ k, k ≠ "1" → (k ≠ "2" ∨ ("2" : String) = "") →
        mapLookup (signoutRun (messageRun (signinRun (signinRun initState "a").1 "b").1
          (some "1") (some "2") "m").1 "1").1.peers k =
          mapLookup (messageRun (signinRun (signinRun initState "a").1 "b").1
            (some "1") (some "2") "m").1.peers k)) :=
  C3_signout_cleanup _ "1"
    ⟨.client, "a", "1", [], "2"⟩ (by decide)

/-- C4 (amended): for a send between two registered peers, (1) if both
were unpaired the send pairs them mutually — whatever the send's outcome;
(2) if the sender was already paired elsewhere, its pairing is untouched
and the send is rejected only by a full recipient mailbox (503), never
because of the pairing mismatch. -/
theorem C4_send_pairing (st : SrvState) (S R body : String) (ps pr : PeerInfo)
    (hWF : StateWF st) (hS : mapLookup st.peers S = some ps)
    (hR : mapLookup st.peers R = some pr) :
    ((ps.connectedWith = "" ∧ pr.connectedWith = "") →
      cwOf (messageRun st (some S) (some R) body).1 S = some R ∧
      cwOf (messageRun st (some S) (some R) body).1 R = some S) ∧
    ((ps.connectedWith ≠ "" ∧ ps.connectedWith ≠ R) →
      cwOf (messageRun st (some S) (some R) body).1 S = some ps.connectedWith ∧
      (pr.channel.length ≠ peerMessageBufferSize →
        (messageRun st (some S) (some R) body).2 = .ok S) ∧
      (pr.channel.length = peerMessageBufferSize →
        (messageRun st (some S) (some R) body).2 = .error .backedUp ∧
        statusCode .backedUp = 503)) := by
  constructor
  · rintro ⟨h1, h2⟩
    rw [messageRun_cw st S R body ps pr hS hR S,
      messageRun_cw st S R body ps pr hS hR R]
    exact pairingStage_both_empty st S R ps pr hWF hS hR h1 h2
  · rintro ⟨h1, _⟩
    refine ⟨?_, ?_, ?_⟩
    · rw [messageRun_cw st S R body ps pr hS hR S]
      exact pairingStage_sender_nonempty st S R ps hS h1
    · intro hlen
      rw [messageRun_res st S R body ps pr hS hR, if_neg hlen]
    · intro hlen
      rw [messageRun_res st S R body ps pr hS hR, if_pos hlen]
      exact ⟨rfl, rfl⟩

/-- Witness for C4: the registry with `a` (id 1), `b` (id 2) registered;
a send 1→2 pairs them mutually, and from the paired state a further send
1→2 keeps the pairing and succeeds. -/
theorem C4_send_pairing_witness :
    cwOf (messageRun (signinRun (signinRun initState "a").1 "b").1
      (some "1") (some "2") "m").1 "1" = some "2" ∧
    cwOf (messageRun (signinRun (signinRun initState "a").1 "b").1
      (some "1") (some "2") "m").1 "2" = some "1" :=
  (C4_send_pairing (signinRun (signinRun initState "a").1 "b").1 "1" "2" "m"
    ⟨.client, "a", "1", [], ""⟩ ⟨.client, "b", "2", [], ""⟩
    (by unfold StateWF; decide) (by decide) (by decide)).1 (by decide)

/-- The registry reached from empty by registering `a` (id 1), `b`
(id 2), `c` (id 3), sending 1→3 (pairing 1↔3) and then 100 sends 3→2,
filling peer 2's mailbox to capacity. -/
def c4Pre : SrvState :=
  (sendSeq "3" "2"
    (messageRun (signinRun (signinRun (signinRun initState "a").1 "b").1
      "c").1 (some "1") (some "3") "p").1
    (List.replicate 100 "m")).1

set_option maxRecDepth 16000

/-- C4 counterexample: in `c4Pre`, peer 1's `connected_with` is `"3"` —
non-empty and different from the recipient `"2"` — yet the send 1→2 is
rejected (503 `backedUp`, because peer 2's mailbox is full), refuting
the claim that such a send is always accepted. -/
theorem C4_counterexample :
    cwOf c4Pre "1" = some "3" ∧ ("3" : String) ≠ "" ∧ ("3" : String) ≠ "2" ∧
    (messageRun c4Pre (some "1") (some "2") "q").2 = .error .backedUp ∧
    statusCode .backedUp = 503 := by
  decide

/-- C5: a registered recipient with an empty mailbox accepts exactly
`peerMessageBufferSize = 100` sends — each enqueued as `(from_id, body)`
in FIFO order — and the 101st send fails with the 503 backpressure
condition, leaving the mailbox unchanged (still the first 100 entries). -/
theorem C5_mailbox_backpressure (st : SrvState) (S R : String) (ps pr : PeerInfo)
    (bodies : List String) (hS : mapLookup st.peers S = some ps)
    (hR : mapLookup st.peers R = some pr) (hEmpty : pr.channel = [])
    (hLen : bodies.length = peerMessageBufferSize + 1) :
    (sendSeq S R st bodies).2 =
      (bodies.take peerMessageBufferSize).map (fun _ => Except.ok S) ++
        [Except.error HErr.backedUp] ∧
    statusCode .backedUp = 503 ∧
    ∃ pr' : PeerInfo, mapLookup (sendSeq S R st bodies).1.peers R = some pr' ∧
      pr'.channel = (bodies.take peerMessageBufferSize).map
        (fun b => PeerMsg.mk S b) := by
  have hsplit : bodies =
      bodies.take peerMessageBufferSize ++ bodies.drop peerMessageBufferSize :=
    (List.take_append_drop _ _).symm
  have hdlen : (bodies.drop peerMessageBufferSize).length = 1 := by
    rw [List.length_drop, hLen]
    omega
  obtain ⟨b, hb⟩ := List.length_eq_one.mp hdlen
  have htlen : (bodies.take peerMessageBufferSize).length = peerMessageBufferSize := by
    rw [List.length_take, hLen]
    omega
  obtain ⟨hres1, pr1, hR1, hch1, hS1⟩ :=
    sendSeq_fill S R (bodies.take peerMessageBufferSize) st pr hR
      (by rw [hS]; rfl) (by rw [hEmpty, htlen]; simp)
  obtain ⟨ps1, hps1⟩ := Option.isSome_iff_exists.mp hS1
  have hfull : pr1.channel.length = peerMessageBufferSize := by
    rw [hch1, hEmpty]
    simpa using htlen
  have heq := messageRun_eq (sendSeq S R st (bodies.take peerMessageBufferSize)).1
    S R b ps1 pr1 hps1 hR1
  rw [if_pos hfull] at heq
  have hbodies : bodies = bodies.take peerMessageBufferSize ++ [b] := by
    rw [← hb]
    exact hsplit
  rw [hbodies, sendSeq_append S R (bodies.take peerMessageBufferSize) [b] st,
    List.take_left' htlen]
  refine ⟨?_, rfl, ?_⟩
  · rw [hres1]
    simp [sendSeq, heq]
  · have hchan2 := pairingStage_chan (sendSeq S R st
      (bodies.take peerMessageBufferSize)).1 S R R
    rw [chanOf, chanOf, hR1] at hchan2
    cases hR3 : mapLookup (pairingStage (sendSeq S R st
        (bodies.take peerMessageBufferSize)).1 S R).peers R with
    | none => rw [hR3] at hchan2; cases hchan2
    | some pr2 =>
      rw [hR3] at hchan2
      have hch2 : pr2.channel = pr1.channel := by injection hchan2
      refine ⟨pr2, ?_, ?_⟩
      · simp [sendSeq, heq, hR3]
      · rw [hch2, hch1, hEmpty]
        simp

/-- Witness for C5: with `a` (id 1) and `b` (id 2) registered, 101 sends
of `"m"` from 1 to 2 produce 100 acceptances, then a 503. -/
theorem C5_mailbox_backpressure_witness :
    ((sendSeq "1" "2" (signinRun (signinRun initState "a").1 "b").1
        (List.replicate 101 "m")).2 =
      ((List.replicate 101 "m").take peerMessageBufferSize).map
        (fun _ => Except.ok "1") ++ [Except.error HErr.backedUp] ∧
    statusCode .backedUp = 503 ∧
    ∃ pr' : PeerInfo,
      mapLookup (sendSeq "1" "2" (signinRun (signinRun initState "a").1 "b").1
        (List.replicate 101 "m")).1.peers "2" = some pr' ∧
      pr'.channel = ((List.replicate 101 "m").take peerMessageBufferSize).map
        (fun b => PeerMsg.mk "1" b)) :=
  C5_mailbox_backpressure (signinRun (signinRun initState "a").1 "b").1 "1" "2"
    ⟨.client, "a", "1", [], ""⟩ ⟨.client, "b", "2", [], ""⟩
    (List.replicate 101 "m") (by decide) (by decide) (by decide) (by decide)

/-- C6 (spec-modelled): a sweeper run at time `now` evicts every peer
with `waiting = false` that was last contacted more than a minute ago —
no peer with its id remains when ids are unique — and retains every peer
currently suspended in a long-poll wait (`waiting = true`), however old
its `last_contact`. -/
theorem C6_sweeper (now : Nat) (ps : List SweepPeer) (p : SweepPeer)
    (hmem : p ∈ ps) (hids : (ps.map SweepPeer.id).Nodup) :
    (p.waiting = false → 60 < now - p.lastContact →
      ∀ q ∈ sweepRun now ps, q.id ≠ p.id) ∧
    (p.waiting = true → p ∈ sweepRun now ps) := by
  constructor
  · intro hw hidle q hq hqid
    obtain ⟨hqmem, hqpred⟩ := List.mem_filter.mp hq
    have hqp : q = p := List.inj_on_of_nodup_map hids hqmem hmem hqid
    rw [hqp, hw] at hqpred
    simp at hqpred
    omega
  · intro hw
    exact List.mem_filter.mpr ⟨hmem, by simp [hw]⟩

/-- Witness for C6: at `now = 100`, a peer idle since 0 and not waiting
is gone from the swept registry, while an equally idle waiting peer
survives. -/
theorem C6_sweeper_witness :
    (∀ q ∈ sweepRun 100 [⟨"1", false, 0⟩, ⟨"2", true, 0⟩], q.id ≠ "1") ∧
    (⟨"2", true, 0⟩ : SweepPeer) ∈ sweepRun 100 [⟨"1", false, 0⟩, ⟨"2", true, 0⟩] :=
  ⟨(C6_sweeper 100 [⟨"1", false, 0⟩, ⟨"2", true, 0⟩] ⟨"1", false, 0⟩
      (by decide) (by decide)).1 rfl (by decide),
   (C6_sweeper 100 [⟨"1", false, 0⟩, ⟨"2", true, 0⟩] ⟨"2", true, 0⟩
      (by decide) (by decide)).2 rfl⟩

/-- C8: a send of body `B` from registered `S` to registered `R` whose
mailbox is empty succeeds, and the next receive on `R` returns exactly
`B` with origin marker `S` and a reported content length equal to `B`'s
byte length. -/
theorem C8_relay_roundtrip (st : SrvState) (S R B : String) (ps pr : PeerInfo)
    (hS : mapLookup st.peers S = some ps) (hR : mapLookup st.peers R = some pr)
    (hEmpty : pr.channel = []) :
    (messageRun st (some S) (some R) B).2 = .ok S ∧
    (waitRun (messageRun st (some S) (some R) B).1 (some R)).2 =
      .ok (some ⟨S, B, B.utf8ByteSize⟩) := by
  have hlen : pr.channel.length ≠ peerMessageBufferSize := by
    rw [hEmpty]
    simp [peerMessageBufferSize]
  have heq := messageRun_eq st S R B ps pr hS hR
  rw [if_neg hlen] at heq
  constructor
  · rw [heq]
  · have hchan := pairingStage_chan st S R R
    rw [chanOf, chanOf, hR] at hchan
    cases hR2 : mapLookup (pairingStage st S R).peers R with
    | none => rw [hR2] at hchan; cases hchan
    | some pr2 =>
      rw [hR2] at hchan
      have hch : pr2.channel = pr.channel := by injection hchan
      have hlook : mapLookup (messageRun st (some S) (some R) B).1.peers R =
          some (enqueueMsg S B pr2) := by
        rw [heq]
        simp only
        rw [mapLookup_update_self, hR2]
        rfl
      have hch2 : (enqueueMsg S B pr2).channel = ⟨S, B⟩ :: [] := by
        simp [enqueueMsg, hch, hEmpty]
      rw [waitRun_pop _ R _ ⟨S, B⟩ [] hlook hch2]

/-- Witness for C8: with `a` (id 1) and `b` (id 2) registered, sending
`"payload"` from 1 to 2 and receiving on 2 returns `"payload"` from
origin `"1"`. -/
theorem C8_relay_roundtrip_witness :
    ((messageRun (signinRun (signinRun initState "a").1 "b").1
        (some "1") (some "2") "payload").2 = .ok "1" ∧
      (waitRun (messageRun (signinRun (signinRun initState "a").1 "b").1
        (some "1") (some "2") "payload").1 (some "2")).2 =
        .ok (some ⟨"1", "payload", "payload".utf8ByteSize⟩)) :=
  C8_relay_roundtrip (signinRun (signinRun initState "a").1 "b").1 "1" "2"
    "payload" ⟨.client, "a", "1", [], ""⟩ ⟨.client, "b", "2", [], ""⟩
    (by decide) (by decide) (by decide)

/-- C7 (amended): every failing request leaves registry membership, every
peer's name and every mailbox unchanged; a failing registration,
deregistration, receive, or a send failing validation leaves the state
exactly as before; but a send that fails with the 503 backpressure
condition may still have updated the sender's and recipient's
`connected_with` (the pairing runs before the capacity check), and only
those two peers' records can differ. -/
theorem C7_failure_isolation :
    (∀ st : SrvState, signinRun st "" = (st, .error .noName)) ∧
    (∀ (st : SrvState) (p : String), mapLookup st.peers p = none →
      signoutRun st p = (st, .error .unknownPeer)) ∧
    (∀ (st : SrvState) (b? : Option String) (body : String),
      messageRun st none b? body = (st, .error .missingID)) ∧
    (∀ (st : SrvState) (a body : String),
      messageRun st (some a) none body = (st, .error .missingID)) ∧
    (∀ (st : SrvState) (S R body : String),
      mapLookup st.peers S = none ∨ mapLookup st.peers R = none →
      messageRun st (some S) (some R) body = (st, .error .invalidID)) ∧
    (∀ st : SrvState, waitRun st none = (st, .error .missingID)) ∧
    (∀ (st : SrvState) (p : String), mapLookup st.peers p = none →
      waitRun st (some p) = (st, .error .unknownPeer)) ∧
    (∀ (st st' : SrvState) (S R body : String) (e : HErr),
      messageRun st (some S) (some R) body = (st', .error e) →
      keysOf st' = keysOf st ∧ (∀ k, chanOf st' k = chanOf st k) ∧
      (∀ k, nameOf st' k = nameOf st k) ∧
      (∀ k, k ≠ S → k ≠ R → mapLookup st'.peers k = mapLookup st.peers k) ∧
      st'.peerIDCount = st.peerIDCount) := by
  refine ⟨?_, ?_, ?_, ?_, ?_, ?_, ?_, ?_⟩
  · intro st
    simp [signinRun]
  · intro st p h
    simp [signoutRun, h]
  · intro st b? body
    cases b? <;> rfl
  · intro st a body
    rfl
  · intro st S R body h
    rcases h with h | h <;>
      cases h1 : mapLookup st.peers S <;> cases h2 : mapLookup st.peers R <;>
        simp_all [messageRun]
  · intro st
    rfl
  · intro st p h
    simp [waitRun, h]
  · intro st st' S R body e hrun
    cases h1 : mapLookup st.peers S with
    | none =>
      have : messageRun st (some S) (some R) body = (st, .error .invalidID) := by
        cases h2 : mapLookup st.peers R <;> simp [messageRun, h1, h2]
      rw [this] at hrun
      injection hrun with ha hb
      rw [← ha]
      exact ⟨rfl, fun k => rfl, fun k => rfl, fun k _ _ => rfl, rfl⟩
    | some ps =>
      cases h2 : mapLookup st.peers R with
      | none =>
        have : messageRun st (some S) (some R) body = (st, .error .invalidID) := by
          simp [messageRun, h1, h2]
        rw [this] at hrun
        injection hrun with ha hb
        rw [← ha]
        exact ⟨rfl, fun k => rfl, fun k => rfl, fun k _ _ => rfl, rfl⟩
      | some pr =>
        rw [messageRun_eq st S R body ps pr h1 h2] at hrun
        split_ifs at hrun with hfull
        · injection hrun with ha hb
          rw [← ha]
          exact ⟨pairingStage_keys st S R, fun k => pairingStage_chan st S R k,
            fun k => pairingStage_name st S R k,
            fun k hk1 hk2 => pairingStage_other st S R k hk1 hk2,
            pairingStage_count st S R⟩
        · injection hrun with ha hb
          cases hb

/-- Witness for C7: a sign-out of an unknown id leaves the one-peer
registry unchanged, and a 503 send between two registered peers (the
recipient's mailbox at capacity) keeps the registry keys and mailboxes
intact. -/
theorem C7_failure_isolation_witness :
    (signoutRun (signinRun initState "a").1 "9" =
      ((signinRun initState "a").1, .error .unknownPeer)) ∧
    (keysOf (messageRun c4Pre (some "1") (some "2") "q").1 = keysOf c4Pre ∧
      (∀ k, chanOf (messageRun c4Pre (some "1") (some "2") "q").1 k = chanOf c4Pre k) ∧
      (∀ k, nameOf (messageRun c4Pre (some "1") (some "2") "q").1 k = nameOf c4Pre k) ∧
      (∀ k, k ≠ "1" → k ≠ "2" →
        mapLookup (messageRun c4Pre (some "1") (some "2") "q").1.peers k =
          mapLookup c4Pre.peers k) ∧
      (messageRun c4Pre (some "1") (some "2") "q").1.peerIDCount = c4Pre.peerIDCount) :=
  ⟨C7_failure_isolation.2.1 (signinRun initState "a").1 "9" (by decide),
   C7_failure_isolation.2.2.2.2.2.2.2 c4Pre
     (messageRun c4Pre (some "1") (some "2") "q").1 "1" "2" "q" .backedUp
     (by decide)⟩

/-- The registry reached from empty by registering `a` (id 1), `b`
(id 2), `c` (id 3), 100 sends 3→2 (filling peer 2's mailbox and pairing
2↔3), then deregistering 3 (which clears peer 2's pairing).  Peers 1 and
2 are both unpaired and peer 2's mailbox is full. -/
def c7Pre : SrvState :=
  (signoutRun (sendSeq "3" "2"
    (signinRun (signinRun (signinRun initState "a").1 "b").1 "c").1
    (List.replicate 100 "m")).1 "3").1

/-- C7 counterexample: in `c7Pre` the send 1→2 fails with 503 — peer 2's
mailbox is full — yet it changes peer 1's `connected_with` from `""` to
`"2"` and peer 2's (another peer's!) from `""` to `"1"`, refuting the
claim that a failing request leaves every peer's fields exactly as they
were. -/
theorem C7_counterexample :
    (messageRun c7Pre (some "1") (some "2") "q").2 = .error .backedUp ∧
    cwOf c7Pre "1" = some "" ∧ cwOf c7Pre "2" = some "" ∧
    cwOf (messageRun c7Pre (some "1") (some "2") "q").1 "1" = some "2" ∧
    cwOf (messageRun c7Pre (some "1") (some "2") "q").1 "2" = some "1" := by
  decide

/-- C9 counterexample: over the sequence of `2^64 + 1` registrations of
the name `a`, the assigned ids are not pairwise distinct — the Go `uint`
counter wraps, so registration `2^64 + 1` is assigned `"1"` again, the
id of the first registration. -/
theorem C9_counterexample :
    ¬ ((runSignins initState (List.replicate (uintModulus + 1) "a")).2).Pairwise
      (· ≠ ·) := by
  intro hpw
  have hrepl : ∀ n ∈ List.replicate (uintModulus + 1) "a", n ≠ "" := by
    intro n hn
    rw [(List.mem_replicate.mp hn).2]
    simp
  have hids := runSignins_ids (List.replicate (uintModulus + 1) "a") hrepl initState
  rw [List.length_replicate] at hids
  rw [hids, List.pairwise_iff_getElem] at hpw
  have h := hpw 0 uintModulus (by simp) (by simp)
    (by simp only [uintModulus]; norm_num)
  simp only [List.getElem_map, List.getElem_range] at h
  apply h
  have harith : (initState.peerIDCount + 0 + 1) % uintModulus =
      (initState.peerIDCount + uintModulus + 1) % uintModulus := by
    simp only [initState]
    simp only [uintModulus]
    omega
  rw [harith]

/-- C9 (amended): as long as at most `2^64` registrations occur — the id
counter is a 64-bit Go `uint` and wraps beyond that — the assigned ids
are pairwise distinct, and the id assigned at each step is not already a
key of the registry at that step. -/
theorem C9_distinct_ids (names : List String) (h1 : ∀ n ∈ names, n ≠ "")
    (h2 : names.length ≤ uintModulus) :
    ((runSignins initState names).2).Pairwise (· ≠ ·) ∧
    (∀ i, i < names.length →
      natDecStr ((i + 1) % uintModulus) ∉
        keysOf (runSignins initState (names.take i)).1) := by
  constructor
  · rw [runSignins_ids names h1 initState, List.pairwise_iff_getElem]
    intro i j hi hj hij
    simp only [List.getElem_map, List.getElem_range]
    intro hc
    have hinj := natDecStr_inj hc
    simp only [List.length_map, List.length_range] at hi hj
    simp only [initState] at hinj
    simp only [uintModulus] at hinj h2
    omega
  · intro i hi hmem
    rcases runSignins_keys_subset (names.take i) initState _ hmem with hk | hk
    · simp [initState, keysOf] at hk
    · have htake := runSignins_ids (names.take i)
        (fun n hn => h1 n (List.take_subset i names hn)) initState
      rw [htake] at hk
      rw [List.mem_map] at hk
      obtain ⟨j, hj, hjeq⟩ := hk
      rw [List.mem_range, List.length_take] at hj
      have hinj := natDecStr_inj hjeq
      simp only [initState] at hinj
      simp only [uintModulus] at hinj h2
      omega

/-- Witness for C9 (amended) on the two-registration sequence
`[a, renderingserver_b]`. -/
theorem C9_distinct_ids_witness :
    ((runSignins initState ["a", "renderingserver_b"]).2).Pairwise (· ≠ ·) ∧
    (∀ i, i < (["a", "renderingserver_b"] : List String).length →
      natDecStr ((i + 1) % uintModulus) ∉
        keysOf (runSignins initState
          ((["a", "renderingserver_b"] : List String).take i)).1) :=
  C9_distinct_ids ["a", "renderingserver_b"] (by decide) (by decide)

/-- C10: registration never checks name uniqueness — two successive
registrations of the same non-empty name (with the usual non-wrapped
fresh ids) both succeed, receive distinct ids, and afterwards coexist in
the registry as records identical in every field except the id. -/
theorem C10_duplicate_names (st : SrvState) (name : String) (h : name ≠ "")
    (hf2 : mapLookup st.peers (natDecStr ((st.peerIDCount + 2) % uintModulus)) = none) :
    (∃ o1, (signinRun st name).2 = .ok o1 ∧
      o1.pragma = natDecStr ((st.peerIDCount + 1) % uintModulus)) ∧
    (∃ o2, (signinRun (signinRun st name).1 name).2 = .ok o2 ∧
      o2.pragma = natDecStr ((st.peerIDCount + 2) % uintModulus)) ∧
    natDecStr ((st.peerIDCount + 1) % uintModulus) ≠
      natDecStr ((st.peerIDCount + 2) % uintModulus) ∧
    (∃ p1 p2 : PeerInfo,
      mapLookup (signinRun (signinRun st name).1 name).1.peers
        (natDecStr ((st.peerIDCount + 1) % uintModulus)) = some p1 ∧
      mapLookup (signinRun (signinRun st name).1 name).1.peers
        (natDecStr ((st.peerIDCount + 2) % uintModulus)) = some p2 ∧
      p1.name = name ∧ p2.name = name ∧ { p1 with id := p2.id } = p2) := by
  have hne12 : natDecStr ((st.peerIDCount + 1) % uintModulus) ≠
      natDecStr ((st.peerIDCount + 2) % uintModulus) := by
    intro hc
    have := natDecStr_inj hc
    simp only [uintModulus] at this
    omega
  have hid1 : newIDOf st = natDecStr ((st.peerIDCount + 1) % uintModulus) := rfl
  have hpeers1 : (signinRun st name).1.peers = (signinLoopOf st name).2 := by
    rw [signinRun_ok st name h]
  have hcount1 : (signinRun st name).1.peerIDCount =
      (st.peerIDCount + 1) % uintModulus := by
    rw [signinRun_ok st name h]
  have hnew2 : newIDOf (signinRun st name).1 =
      natDecStr ((st.peerIDCount + 2) % uintModulus) := by
    rw [newIDOf, hcount1]
    congr 1
    simp only [uintModulus]
    omega
  have hl1 : mapLookup (signinRun st name).1.peers
      (natDecStr ((st.peerIDCount + 1) % uintModulus)) = some (newPeerOf st name) := by
    rw [hpeers1, signinLoopOf, notifyLoop_lookup, ← hid1, mapLookup_insert_self]
    simp [eligB]
  have hl2 : mapLookup (signinRun st name).1.peers
      (natDecStr ((st.peerIDCount + 2) % uintModulus)) = none := by
    rw [hpeers1, signinLoopOf, notifyLoop_lookup,
      mapLookup_insert_ne _ _ _ _ (by rw [hid1]; exact Ne.symm hne12), hf2]
    rfl
  have hpeers2 : (signinRun (signinRun st name).1 name).1.peers =
      (signinLoopOf (signinRun st name).1 name).2 := by
    rw [signinRun_ok (signinRun st name).1 name h]
  have hl2' : mapLookup (signinRun (signinRun st name).1 name).1.peers
      (natDecStr ((st.peerIDCount + 2) % uintModulus)) =
      some (newPeerOf (signinRun st name).1 name) := by
    rw [hpeers2, signinLoopOf, notifyLoop_lookup, ← hnew2, mapLookup_insert_self]
    simp [eligB]
  have hl1' : mapLookup (signinRun (signinRun st name).1 name).1.peers
      (natDecStr ((st.peerIDCount + 1) % uintModulus)) = some (newPeerOf st name) := by
    rw [hpeers2, signinLoopOf, notifyLoop_lookup,
      mapLookup_insert_ne _ _ _ _ (by rw [hnew2]; exact hne12), hl1]
    simp [eligB, newPeerOf]
  refine ⟨⟨⟨newIDOf st, mkDescLine name (newIDOf st) ++ (signinLoopOf st name).1⟩,
      ?_, hid1⟩,
    ⟨⟨newIDOf (signinRun st name).1, mkDescLine name (newIDOf (signinRun st name).1) ++
        (signinLoopOf (signinRun st name).1 name).1⟩, ?_, hnew2⟩,
    hne12,
    newPeerOf st name, newPeerOf (signinRun st name).1 name, hl1', hl2', rfl, rfl, rfl⟩
  · rw [signinRun_ok st name h]
  · rw [signinRun_ok (signinRun st name).1 name h]

/-- Witness for C10: two registrations of `dup` from the empty registry
coexist under ids 1 and 2. -/
theorem C10_duplicate_names_witness :
    (∃ o1, (signinRun initState "dup").2 = .ok o1 ∧
      o1.pragma = natDecStr ((initState.peerIDCount + 1) % uintModulus)) ∧
    (∃ o2, (signinRun (signinRun initState "dup").1 "dup").2 = .ok o2 ∧
      o2.pragma = natDecStr ((initState.peerIDCount + 2) % uintModulus)) ∧
    natDecStr ((initState.peerIDCount + 1) % uintModulus) ≠
      natDecStr ((initState.peerIDCount + 2) % uintModulus) ∧
    (∃ p1 p2 : PeerInfo,
      mapLookup (signinRun (signinRun initState "dup").1 "dup").1.peers
        (natDecStr ((initState.peerIDCount + 1) % uintModulus)) = some p1 ∧
      mapLookup (signinRun (signinRun initState "dup").1 "dup").1.peers
        (natDecStr ((initState.peerIDCount + 2) % uintModulus)) = some p2 ∧
      p1.name = "dup" ∧ p2.name = "dup" ∧ { p1 with id := p2.id } = p2) :=
  C10_duplicate_names initState "dup" (by decide) (by decide)
